import Mathlib

/-!
Verification development for the Tiendaweb polling/dispatch engine.

The definitions below are a shallow embedding of the JavaScript source:
`processUpdates` / `fetchPrimaryUpdates` / `scheduleNextPrimaryPoll` /
`parseProductCommand` (checkout.js), `addMessageToChat` / `deleteProduct` /
`renumberProducts` / `updateProductCard` (ui.js), and `saveChatHistory`
(storage.js).  JavaScript strings are modelled as `List Char`, decimal
numbers produced by `parseFloat` on digit strings as `ℚ`, `localStorage`
as an association list, and the two network oracles (the `getUpdates`
outcome and `getFile` resolution) as explicit inputs.
-/

namespace Tiendaweb

/-- Convert a string literal to the `List Char` representation used throughout. -/
def strL (s : String) : List Char := s.toList

/-- JavaScript `String.prototype.split(sep)` for a one-character separator. -/
def splitChar (sep : Char) : List Char → List (List Char)
  | [] => [[]]
  | c :: cs =>
    if c = sep then [] :: splitChar sep cs
    else
      match splitChar sep cs with
      | h :: t => (c :: h) :: t
      | [] => [[c]]

/-- JavaScript `String.prototype.trim` (ASCII whitespace, which covers all inputs here). -/
def trimChars (s : List Char) : List Char :=
  ((s.dropWhile Char.isWhitespace).reverse.dropWhile Char.isWhitespace).reverse

/-- `String.prototype.toUpperCase`, ASCII range (all compared keywords are ASCII). -/
def upperChars (s : List Char) : List Char := s.map Char.toUpper

/-- Value of `parseInt` on an all-digit string. -/
def natOfDigits (s : List Char) : Nat := s.foldl (fun n c => n * 10 + (c.toNat - 48)) 0

/-- The JavaScript regex test `/^\d+$/`. -/
def isDigitsStr (s : List Char) : Bool := !s.isEmpty && s.all Char.isDigit

/-- JavaScript truthiness normalisation `x || null` for an optional string. -/
def orNull : Option (List Char) → Option (List Char)
  | some [] => none
  | none => none
  | some s => some s

/-- A currency tag matched by the price regex `(CUP|MLC)`. -/
inductive Cur where
  | cup
  | mlc
deriving DecidableEq

/-- Integer part of a matched price number, as a rational. -/
def ratOfDigits (d : List Char) : ℚ := (natOfDigits d : ℚ)

/-- Fractional part of a matched price number: digits after the separator. -/
def fracVal (e : List Char) : ℚ := (natOfDigits e : ℚ) / ((10 : ℚ) ^ e.length)

/-- Case-insensitive match of the `(CUP|MLC)` alternative at the head of the input,
returning the tag and the rest of the string. -/
def matchCur : List Char → Option (Cur × List Char)
  | c1 :: c2 :: c3 :: rest =>
    if c1.toUpper = 'C' ∧ c2.toUpper = 'U' ∧ c3.toUpper = 'P' then some (Cur.cup, rest)
    else if c1.toUpper = 'M' ∧ c2.toUpper = 'L' ∧ c3.toUpper = 'C' then some (Cur.mlc, rest)
    else none
  | _ => none

/-- Complete a price-token match: after the numeric part, the regex consumes `\s*`
and then the currency alternative. -/
def finishMatch (v : ℚ) (r : List Char) : Option (ℚ × Cur × List Char) :=
  match matchCur (r.dropWhile Char.isWhitespace) with
  | some (cur, rest) => some (v, cur, rest)
  | none => none

/-- Attempt to match `(\d+[,.]?\d*)\s*(CUP|MLC)` anchored at the head of `s`
(the backtracking behaviour of the JavaScript engine degenerates to this
deterministic greedy match, since digits, separators, whitespace and the
currency letters are pairwise disjoint character classes).
`parseFloat(match[1].replace(',', '.'))` is the returned rational. -/
def tryMatch (s : List Char) : Option (ℚ × Cur × List Char) :=
  let d1 := s.takeWhile Char.isDigit
  if d1.isEmpty then none
  else
    match s.drop d1.length with
    | c :: cs =>
      if c = ',' ∨ c = '.' then
        let e1 := cs.takeWhile Char.isDigit
        finishMatch (ratOfDigits d1 + fracVal e1) (cs.drop e1.length)
      else finishMatch (ratOfDigits d1) (c :: cs)
    | [] => finishMatch (ratOfDigits d1) []

/-- One step of the `priceRegex.exec` scan with fuel (the fuel `s.length` of
`scanPrices` always suffices, see `scanAux_eq_of_le`): find the leftmost match
at or after the current position, emit it, continue after it. -/
def scanAux : Nat → List Char → List (ℚ × Cur)
  | 0, _ => []
  | Nat.succ f, s =>
    match s with
    | [] => []
    | c :: cs =>
      if c.isDigit then
        match tryMatch (c :: cs) with
        | some (v, cur, rest) => (v, cur) :: scanAux f rest
        | none => scanAux f cs
      else scanAux f cs

/-- The full left-to-right scan of the price segment by
`/(\d+[,.]?\d*)\s*(CUP|MLC)/gi`, producing the matched tokens in order. -/
def scanPrices (s : List Char) : List (ℚ × Cur) := scanAux s.length s

/-- One iteration of the `while ((match = priceRegex.exec(...)))` loop body:
the matched value overwrites the price slot of its currency. -/
def priceStep (acc : Option ℚ × Option ℚ) (t : ℚ × Cur) : Option ℚ × Option ℚ :=
  match t.2 with
  | Cur.cup => (some t.1, acc.2)
  | Cur.mlc => (acc.1, some t.1)

/-- The whole `while` loop over the scanned tokens, starting from
`priceCUP = null; priceMLC = null`. -/
def priceAssign (toks : List (ℚ × Cur)) : Option ℚ × Option ℚ :=
  toks.foldl priceStep (none, none)

/-- The `*DULCES*` sentinel string. -/
def dulcesTag : List Char := ['*', 'D', 'U', 'L', 'C', 'E', 'S', '*']

/-- The bare `DULCES` keyword. -/
def dulcesWord : List Char := ['D', 'U', 'L', 'C', 'E', 'S']

/-- The result of `parseProductCommand`:
`{ id, name, description, priceCUP, priceMLC }` (the id is kept as the digit
string, exactly as in the source). -/
structure ProdCmd where
  id : List Char
  name : List Char
  description : List Char
  priceCUP : Option ℚ
  priceMLC : Option ℚ
deriving DecidableEq

/-- Segment extraction of `parseProductCommand`:
`text.split('*').slice(1, -1).map(trim).filter(nonEmpty)`, then the
`length < 5 || parts[0].toUpperCase() !== 'DULCES'` rejection; on success the
id, name, description and price segments are returned. -/
def dulcesSegments (t : List Char) : Option (List Char × List Char × List Char × List Char) :=
  match (((splitChar '*' t).drop 1).dropLast.map trimChars).filter (fun p => !p.isEmpty) with
  | w :: i :: nm :: ds :: ps :: _ =>
    if upperChars w = dulcesWord then some (i, nm, ds, ps) else none
  | _ => none

/-- Tail of `parseProductCommand` after segment extraction: the `/^\d+$/` id check,
the price-regex scan of the price segment, and the
`priceCUP === null && priceMLC === null` rejection. -/
def mkProductCommand (i nm ds ps : List Char) : Option ProdCmd :=
  if isDigitsStr i then
    match priceAssign (scanPrices ps) with
    | (none, none) => none
    | (c, m) => some ⟨i, nm, ds, c, m⟩
  else none

/-- `parseProductCommand` from checkout.js (lines 656-706): `null` unless the text
starts with `*DULCES*`, then segment extraction and price parsing. -/
def parseProductCommand (t : List Char) : Option ProdCmd :=
  if dulcesTag.isPrefixOf t then
    match dulcesSegments t with
    | some (i, nm, ds, ps) => mkProductCommand i nm ds ps
    | none => none
  else none

/-- Chat entry type tags: `'sent' | 'received' | 'system' | 'error'`. -/
inductive MsgType where
  | sent
  | received
  | system
  | error
deriving DecidableEq

/-- One chat history entry as pushed by `addMessageToChat`. -/
structure Entry where
  text : Option (List Char)
  type : MsgType
  sender : List Char
  timestamp : Nat
  imageUrl : Option (List Char)
deriving DecidableEq

/-- The entry object pushed by `addMessageToChat`
(`text: text || null`, `imageUrl: imageUrl || null`). -/
def mkEntry (text : Option (List Char)) (ty : MsgType) (sender : List Char) (ts : Nat)
    (img : Option (List Char)) : Entry :=
  ⟨orNull text, ty, sender, ts, orNull img⟩

/-- The duplicate test of `addMessageToChat`: field-by-field comparison with the
last element of the history array. -/
def isDuplicateOfLast (h : List Entry) (text : Option (List Char)) (ty : MsgType)
    (sender : List Char) (ts : Nat) (img : Option (List Char)) : Bool :=
  match h.getLast? with
  | some last =>
    decide (last.timestamp = ts) && decide (last.sender = sender) && decide (last.type = ty) &&
      decide (last.text = orNull text) && decide (last.imageUrl = orNull img)
  | none => false

/-- `saveChatHistory` from storage.js (lines 44-72): the value actually written to
storage is the input, trimmed to its last 200 entries when longer
(`history.slice(history.length - 200)`). -/
def saveChatHistoryVal (h : List Entry) : List Entry :=
  if 200 < h.length then h.drop (h.length - 200) else h

/-- `addMessageToChat` from ui.js (lines 937-965).  Returns the new history array
and, when a write to storage happened, the written (trimmed) value. -/
def addMessageToChat (text : Option (List Char)) (ty : MsgType) (sender : List Char)
    (ts : Nat) (img : Option (List Char)) (save : Bool) (h : List Entry)
    (key : List Char) : List Entry × Option (List Entry) :=
  if save = true ∧ ty ≠ MsgType.system ∧ ty ≠ MsgType.error ∧ key ≠ [] then
    if isDuplicateOfLast h text ty sender ts img then (h, none)
    else
      let h2 := h ++ [mkEntry text ty sender ts img]
      (h2, some (saveChatHistoryVal h2))
  else (h, none)

/-- A stored product record `{ name, description, priceCUP, priceMLC, imageUrl }`. -/
structure ProdRec where
  name : List Char
  description : List Char
  priceCUP : Option ℚ
  priceMLC : Option ℚ
  imageUrl : Option (List Char)
deriving DecidableEq

/-- A product card in the DOM grid: its `data-product-id` and the displayed
name, description and image source (what `renumberProducts` can scrape back). -/
structure Card where
  pid : List Char
  nameText : List Char
  descText : List Char
  imgSrc : Option (List Char)
deriving DecidableEq

/-- `localStorage` lookup in an association list (keys are unique). -/
def kvGet (k : List Char) : List (List Char × ProdRec) → Option ProdRec
  | [] => none
  | p :: ps => if p.1 = k then some p.2 else kvGet k ps

/-- `localStorage.setItem`: overwrite in place, or append a new key. -/
def kvSet (k : List Char) (v : ProdRec) : List (List Char × ProdRec) → List (List Char × ProdRec)
  | [] => [(k, v)]
  | p :: ps => if p.1 = k then (k, v) :: ps else p :: kvSet k v ps

/-- `localStorage.removeItem`. -/
def kvRemove (k : List Char) (m : List (List Char × ProdRec)) : List (List Char × ProdRec) :=
  m.filter (fun p => !(p.1 = k : Bool))

/-- Logged message severities; the log text itself is abstracted away. -/
inductive LogKind where
  | system
  | warn
  | error
deriving DecidableEq

/-- The application state touched by the dispatcher: the DOM product grid, the
`product_data_*` storage entries, the ticker, the MLC card number, the emitted
notification and roulette UI triggers, the shared chat history (in memory and
as persisted), and the emitted log entries. -/
structure AppState where
  grid : List Card
  store : List (List Char × ProdRec)
  ticker : Option (List Char)
  mlcCard : Option (List Char)
  notifications : List (List Char)
  roulette : List (List Char × Nat × List Char)
  chatHistory : List Entry
  persistedChat : Option (List Entry)
  logs : List LogKind
deriving DecidableEq

/-- Append one log entry (a `logCallback` call, text abstracted). -/
def addLog (s : AppState) (k : LogKind) : AppState := {s with logs := s.logs ++ [k]}

/-- String form of a numeric product id (`(index + 1).toString()`). -/
def natKey (n : Nat) : List Char := (Nat.repr n).toList

/-- `createProductCardElement`: the created card displays the record's data. -/
def createProductCardElement (pid : List Char) (r : ProdRec) : Card :=
  ⟨pid, r.name, r.description, r.imageUrl⟩

/-- Whether the grid holds a card with this id (`querySelector` success). -/
def gridHas (pid : List Char) (grid : List Card) : Bool :=
  grid.any (fun c => c.pid = pid)

/-- Update the first card with the given id in place (the `querySelector` hit). -/
def updateFirst (pid : List Char) (r : ProdRec) : List Card → List Card
  | [] => []
  | c :: cs =>
    if c.pid = pid then {c with nameText := r.name, descText := r.description, imgSrc := r.imageUrl} :: cs
    else c :: updateFirst pid r cs

/-- Insert a new card before the first existing card with a larger numeric id
(`newProductIdInt < existingCardIdInt`), else append. -/
def insertOrdered (pid : List Char) (r : ProdRec) : List Card → List Card
  | [] => [createProductCardElement pid r]
  | c :: cs =>
    if natOfDigits pid < natOfDigits c.pid then createProductCardElement pid r :: c :: cs
    else c :: insertOrdered pid r cs

/-- `updateProductCard` from ui.js (lines 1057-1133): update an existing card's
content, or create and insert a new card in ascending numeric order. -/
def updateProductCard (pid : List Char) (r : ProdRec) (grid : List Card) : List Card :=
  if gridHas pid grid then updateFirst pid r grid else insertOrdered pid r grid

/-- Remove the first card with the given id (`productCard.remove()`). -/
def eraseFirstCard (pid : List Char) : List Card → List Card
  | [] => []
  | c :: cs => if c.pid = pid then cs else c :: eraseFirstCard pid cs

/-- One pending migration collected by the renumbering loop:
`{ oldId, newId, oldData }`. -/
structure MigrationRec where
  oldId : List Char
  newId : List Char
  oldData : ProdRec
deriving DecidableEq

/-- Phase 1 data collection of `renumberProducts`: for every card whose id differs
from `index + 1`, record the migration, taking `loadProductData(oldId)` or, when
the record is missing, the data scraped from the card (prices unrecoverable). -/
def collectUpdates (store : List (List Char × ProdRec)) : Nat → List Card → List MigrationRec
  | _, [] => []
  | i, c :: cs =>
    if c.pid ≠ natKey (i + 1) then
      {oldId := c.pid, newId := natKey (i + 1),
       oldData :=
         match kvGet c.pid store with
         | some d => d
         | none => {name := c.nameText, description := c.descText,
                    priceCUP := none, priceMLC := none, imageUrl := c.imgSrc}} ::
        collectUpdates store (i + 1) cs
    else collectUpdates store (i + 1) cs

/-- Phase 1 DOM mutation of `renumberProducts`: every card's `data-product-id`
becomes `index + 1` (cards already carrying the right id are left alone). -/
def renumberCards : Nat → List Card → List Card
  | _, [] => []
  | i, c :: cs =>
    (if c.pid ≠ natKey (i + 1) then {c with pid := natKey (i + 1)} else c) :: renumberCards (i + 1) cs

/-- Phase 2 of `renumberProducts`: remove the old keys that are not overwritten by
a migrated record, then store every migrated record under its new key. -/
def migrateStore (ups : List MigrationRec) (store : List (List Char × ProdRec)) :
    List (List Char × ProdRec) :=
  let saveKeys := ups.map (fun u => u.newId)
  let store1 := ups.foldl (fun m u => if saveKeys.contains u.oldId then m else kvRemove u.oldId m) store
  ups.foldl (fun m u => kvSet u.newId u.oldData m) store1

/-- `renumberProducts` from ui.js (lines 1276-1379): reassign ids `1..N` in display
order; storage is touched only when some id actually changed. -/
def renumber (st : AppState) : AppState :=
  if st.grid.isEmpty then st
  else
    let ups := collectUpdates st.store 0 st.grid
    let grid2 := renumberCards 0 st.grid
    if ups.isEmpty then {st with grid := grid2}
    else {st with grid := grid2, store := migrateStore ups st.store}

/-- `deleteProduct` from ui.js (lines 1234-1270): remove the card and its stored
record, then renumber; when only an orphaned record exists, remove it and
renumber; otherwise do nothing. -/
def deleteProduct (st : AppState) (pid : List Char) : AppState :=
  if gridHas pid st.grid then
    renumber {st with grid := eraseFirstCard pid st.grid, store := kvRemove pid st.store}
  else
    match kvGet pid st.store with
    | some _ => renumber {st with store := kvRemove pid st.store}
    | none => st

/-- One photo size variant of a Telegram message (only the file id is used). -/
structure Photo where
  fileId : List Char
deriving DecidableEq

/-- A Telegram message as consumed by `processUpdates`; `sender` is the already
resolved display name (`from.first_name || from.username || 'Desconocido'`). -/
structure Message where
  sender : List Char
  chatId : List Char
  date : Nat
  text : Option (List Char)
  caption : Option (List Char)
  photo : Option (List Photo)

/-- One `getUpdates` envelope. -/
structure Update where
  update_id : Nat
  message : Option Message

/-- Which poll loop is processing the batch. -/
inductive BotType where
  | primary
  | auxiliary
deriving DecidableEq

/-- The effective configuration: the two bound chat ids, whether an auxiliary
token is configured, and the two file base URLs. -/
structure Config where
  mainChatId : List Char
  auxChatId : Option (List Char)
  hasAuxToken : Bool
  primaryFileBase : List Char
  auxFileBase : List Char

/-- The chat id a channel accepts messages from (`MAIN_CHAT_ID` for the primary
loop, `AUX_CHAT_ID`, possibly unset, for the auxiliary loop). -/
def boundChat (cfg : Config) : BotType → Option (List Char)
  | BotType.primary => some cfg.mainChatId
  | BotType.auxiliary => cfg.auxChatId

/-- The `getFile` oracle: given `useAuxToken` and a file id, the resolved
`file_path`, or `none` when the request fails or lacks a path. -/
def FileOracle : Type := Bool → List Char → Option (List Char)

/-- The storage key `telegramChatHistory_${MAIN_CHAT_ID}`. -/
def storageKey (cfg : Config) : List Char :=
  strL "telegramChatHistory_" ++ cfg.mainChatId

/-- The exact text `*ELIMINAR.M*`. -/
def eliminarMText : List Char := ['*', 'E', 'L', 'I', 'M', 'I', 'N', 'A', 'R', '.', 'M', '*']

/-- The prefix `*PANEL SUPERIOR*`. -/
def panelText : List Char :=
  ['*', 'P', 'A', 'N', 'E', 'L', ' ', 'S', 'U', 'P', 'E', 'R', 'I', 'O', 'R', '*']

/-- The prefix `*NOTIFICACION*`. -/
def notifText : List Char := ['*', 'N', 'O', 'T', 'I', 'F', 'I', 'C', 'A', 'C', 'I', 'O', 'N', '*']

/-- The prefix `*RULETA*`. -/
def ruletaText : List Char := ['*', 'R', 'U', 'L', 'E', 'T', 'A', '*']

/-- The bare `RULETA` keyword. -/
def ruletaWord : List Char := ['R', 'U', 'L', 'E', 'T', 'A']

/-- The prefix `*TARJETA*`. -/
def tarjetaText : List Char := ['*', 'T', 'A', 'R', 'J', 'E', 'T', 'A', '*']

/-- The exact text `*TARJETA.E*`. -/
def tarjetaEText : List Char := ['*', 'T', 'A', 'R', 'J', 'E', 'T', 'A', '.', 'E', '*']

/-- The prefix `*ELIMINAR.PRODUCTO*`. -/
def elimProdText : List Char :=
  ['*', 'E', 'L', 'I', 'M', 'I', 'N', 'A', 'R', '.', 'P', 'R', 'O', 'D', 'U', 'C', 'T', 'O', '*']

/-- The bare `ELIMINAR.PRODUCTO` keyword. -/
def elimProdWord : List Char :=
  ['E', 'L', 'I', 'M', 'I', 'N', 'A', 'R', '.', 'P', 'R', 'O', 'D', 'U', 'C', 'T', 'O']

/-- `text.split('*').map(trim).filter(nonEmpty)` as used by the `*RULETA*` and
`*ELIMINAR.PRODUCTO*` branches. -/
def splitTrimFilter (t : List Char) : List (List Char) :=
  ((splitChar '*' t).map trimChars).filter (fun p => !p.isEmpty)

/-- The `*ELIMINAR.M*` branch: `clearChat` empties the stored and in-memory
history (one system log from `clearChat`, one from the branch itself). -/
def doClearChat (s : AppState) : AppState :=
  {s with chatHistory := [], persistedChat := none,
          logs := s.logs ++ [LogKind.system, LogKind.system]}

/-- The `*PANEL SUPERIOR*` branch: store the trimmed remainder as ticker text. -/
def doTicker (s : AppState) (t : List Char) : AppState :=
  {s with ticker := some (trimChars (t.drop panelText.length)), logs := s.logs ++ [LogKind.system]}

/-- The `*NOTIFICACION*` branch: show the trimmed remainder, or warn when empty. -/
def doNotif (s : AppState) (t : List Char) : AppState :=
  let n := trimChars (t.drop notifText.length)
  if n.isEmpty then addLog s LogKind.warn
  else {s with notifications := s.notifications ++ [n], logs := s.logs ++ [LogKind.system]}

/-- The well-formedness test of the `*RULETA*` command, including the
`winHour` range check. -/
def rouletteOk (t : List Char) : Bool :=
  match splitTrimFilter t with
  | [w, a, hh, code] =>
    decide (upperChars w = ruletaWord) && isDigitsStr a && isDigitsStr hh && !code.isEmpty &&
      decide (natOfDigits hh ≤ 23)
  | _ => false

/-- The `*RULETA*` branch: on the 4-segment well-formed shape with a valid hour,
trigger the roulette button; otherwise warn and drop. -/
def doRuleta (s : AppState) (t : List Char) : AppState :=
  match splitTrimFilter t with
  | [w, a, hh, code] =>
    if decide (upperChars w = ruletaWord) && isDigitsStr a && isDigitsStr hh && !code.isEmpty then
      if natOfDigits hh ≤ 23 then
        {s with roulette := s.roulette ++ [(a, natOfDigits hh, code)],
                logs := s.logs ++ [LogKind.system]}
      else addLog s LogKind.warn
    else addLog s LogKind.warn
  | _ => addLog s LogKind.warn

/-- A character allowed by the card-number regex `/^[0-9\s-]+$/`. -/
def isCardChar (ch : Char) : Bool := ch.isDigit || ch.isWhitespace || ch = '-'

/-- The `*TARJETA*` branch: store the trimmed remainder when it is a nonempty
string of digits, whitespace and dashes; otherwise warn. -/
def doTarjeta (s : AppState) (t : List Char) : AppState :=
  let c := trimChars (t.drop tarjetaText.length)
  if !c.isEmpty && c.all isCardChar then
    {s with mlcCard := some c, logs := s.logs ++ [LogKind.system]}
  else addLog s LogKind.warn

/-- The `*TARJETA.E*` branch: remove the stored card number. -/
def doTarjetaE (s : AppState) : AppState :=
  {s with mlcCard := none, logs := s.logs ++ [LogKind.system]}

/-- The `*ELIMINAR.PRODUCTO*` branch: on the 2-segment numeric shape delete the
product (and renumber); otherwise warn. -/
def doElimProd (s : AppState) (t : List Char) : AppState :=
  match splitTrimFilter t with
  | [w, idStr] =>
    if decide (upperChars w = elimProdWord) && isDigitsStr idStr then
      addLog (deleteProduct s idStr) LogKind.system
    else addLog s LogKind.warn
  | _ => addLog s LogKind.warn

/-- Resolution of a product-update photo: the highest-resolution variant is the
last of the photo array; `getFile` gives a path appended to the per-credential
base URL.  The second component records whether a failure warning was logged. -/
def resolveImage (cfg : Config) (fr : FileOracle) (bt : BotType) (ph : Option (List Photo)) :
    Option (List Char) × Bool :=
  match ph with
  | some arr =>
    match arr.getLast? with
    | some best =>
      let useAux := decide (bt = BotType.auxiliary) && cfg.hasAuxToken
      match fr useAux best.fileId with
      | some path =>
        (some ((if useAux then cfg.auxFileBase else cfg.primaryFileBase) ++ '/' :: path), false)
      | none => (none, true)
    | none => (none, false)
  | none => (none, false)

/-- Append one received chat message through `addMessageToChat` with `save = true`,
updating the in-memory history and, when written, the persisted copy. -/
def appendChat (cfg : Config) (s : AppState) (sender : List Char) (date : Nat)
    (txt img : Option (List Char)) : AppState :=
  let r := addMessageToChat txt MsgType.received sender date img true s.chatHistory (storageKey cfg)
  {s with chatHistory := r.1,
          persistedChat := match r.2 with | some v => some v | none => s.persistedChat}

/-- Whether `photoArray && photoArray.length > 0` holds. -/
def photoNonempty : Option (List Photo) → Bool
  | some (_ :: _) => true
  | _ => false

/-- The chat-message handling tail of `processUpdates` (lines 894-926): only a
primary-loop message from the main chat is appended; photos resolve their file
URL with the primary token, a failed resolution still saves a caption-bearing
message (with a warning); plain text is saved directly; membership events and
unsupported messages are ignored. -/
def chatBranch (cfg : Config) (fr : FileOracle) (s : AppState) (bt : BotType) (m : Message) :
    AppState :=
  if bt = BotType.primary ∧ m.chatId = cfg.mainChatId then
    if photoNonempty m.photo then
      match (m.photo.getD []).getLast? with
      | some best =>
        match fr false best.fileId with
        | some path => appendChat cfg s m.sender m.date m.caption (some (cfg.primaryFileBase ++ '/' :: path))
        | none =>
          let s1 := addLog s LogKind.warn
          if (orNull m.caption).isSome then appendChat cfg s1 m.sender m.date m.caption none else s1
      | none => s
    else
      match orNull m.text with
      | some _ => appendChat cfg s m.sender m.date m.text none
      | none => s
  else s

/-- The product-upsert tail of `processUpdates` (lines 840-891): parse
`caption || text` as a product command; resolve the attached photo if any; when
no image URL was obtained, retain the existing record's image; write the card
and the record; otherwise fall through to chat handling. -/
def afterCommands (cfg : Config) (fr : FileOracle) (s : AppState) (bt : BotType) (m : Message) :
    AppState :=
  let cts := match orNull m.caption with | some c => some c | none => orNull m.text
  match (match cts with | some c => parseProductCommand c | none => none) with
  | some p =>
    let pr := resolveImage cfg fr bt m.photo
    let s1 := if pr.2 then addLog s LogKind.warn else s
    let existing :=
      match pr.1 with
      | some _ => none
      | none =>
        match kvGet p.id s.store with
        | some d => d.imageUrl
        | none => none
    let newRec : ProdRec :=
      {name := p.name, description := p.description, priceCUP := p.priceCUP,
       priceMLC := p.priceMLC,
       imageUrl := match pr.1 with | some u => some u | none => existing}
    addLog {s1 with grid := updateProductCard p.id newRec s1.grid,
                    store := kvSet p.id newRec s1.store} LogKind.system
  | none => chatBranch cfg fr s bt m

/-- The per-message body of `processUpdates` (checkout.js lines 725-926): the
chat-id filter, then the command branches in source order, then product parsing
and chat handling. -/
def processMessage (cfg : Config) (fr : FileOracle) (s : AppState) (bt : BotType) (m : Message) :
    AppState :=
  if boundChat cfg bt = some m.chatId then
    match m.text with
    | some t =>
      if t = eliminarMText then doClearChat s
      else if panelText.isPrefixOf t then doTicker s t
      else if notifText.isPrefixOf t then doNotif s t
      else if ruletaText.isPrefixOf t then doRuleta s t
      else if tarjetaText.isPrefixOf t then doTarjeta s t
      else if t = tarjetaEText then doTarjetaE s
      else if elimProdText.isPrefixOf t then doElimProd s t
      else afterCommands cfg fr s bt m
    | none => afterCommands cfg fr s bt m
  else s

/-- The polling cursors (`lastPrimaryUpdateId`, `lastAuxiliaryUpdateId`) together
with the dispatcher state. -/
structure PollState where
  lastPrimaryUpdateId : Nat
  lastAuxiliaryUpdateId : Nat
  core : AppState

/-- The per-update cursor write at the top of the `processUpdates` loop. -/
def setCursor (ps : PollState) (bt : BotType) (n : Nat) : PollState :=
  match bt with
  | BotType.primary => {ps with lastPrimaryUpdateId := n}
  | BotType.auxiliary => {ps with lastAuxiliaryUpdateId := n}

/-- Read a channel's cursor. -/
def cursorOf (bt : BotType) (ps : PollState) : Nat :=
  match bt with
  | BotType.primary => ps.lastPrimaryUpdateId
  | BotType.auxiliary => ps.lastAuxiliaryUpdateId

/-- One iteration of the `for (const update of updates)` loop of
`processUpdates`: write the cursor, then process the message if present. -/
def processUpdate (cfg : Config) (fr : FileOracle) (ps : PollState) (bt : BotType) (u : Update) :
    PollState :=
  let ps1 := setCursor ps bt u.update_id
  match u.message with
  | some m => {ps1 with core := processMessage cfg fr ps1.core bt m}
  | none => ps1

/-- `processUpdates` over a whole fetched batch. -/
def processUpdatesBatch (cfg : Config) (fr : FileOracle) (ps : PollState) (bt : BotType)
    (us : List Update) : PollState :=
  us.foldl (fun a u => processUpdate cfg fr a bt u) ps

/-- The cursor values reached through a batch, including the starting one. -/
def cursorTrace (cfg : Config) (fr : FileOracle) (ps : PollState) (bt : BotType)
    (us : List Update) : List Nat :=
  (us.scanl (fun a u => processUpdate cfg fr a bt u) ps).map (cursorOf bt)

/-- The request body built by `fetchPrimaryUpdates` /
`fetchAuxiliaryUpdates` for `getUpdates`. -/
structure GetUpdatesParams where
  offset : Nat
  timeout : Nat
  allowedUpdates : List (List Char)
deriving DecidableEq

/-- `fetchPrimaryUpdates` request: `offset: lastPrimaryUpdateId + 1, timeout: 50,
allowed_updates: ["message"]`. -/
def primaryGetUpdatesParams (lastId : Nat) : GetUpdatesParams :=
  ⟨lastId + 1, 50, [strL "message"]⟩

/-- `fetchAuxiliaryUpdates` request: same shape over the auxiliary cursor. -/
def auxiliaryGetUpdatesParams (lastId : Nat) : GetUpdatesParams :=
  ⟨lastId + 1, 50, [strL "message"]⟩

/-- The poll loop's `primaryUpdateInterval` / `auxiliaryUpdateInterval` variable:
`null` (stopped), `true` (starting), or a pending timeout with its delay. -/
inductive PollTimer where
  | stopped
  | starting
  | scheduled (delay : Nat)
deriving DecidableEq

/-- JavaScript truthiness of the interval variable. -/
def timerTruthy : PollTimer → Bool
  | PollTimer.stopped => false
  | _ => true

/-- `scheduleNextPrimaryPoll` / `scheduleNextAuxiliaryPoll`: when the loop is not
stopped, clear any pending timeout and set a new one with the given delay. -/
def schedulePoll (iv : PollTimer) (delay : Nat) : PollTimer :=
  if timerTruthy iv then PollTimer.scheduled delay else iv

/-- The outcome of one `getUpdates` round trip: the request (or the subsequent
processing) throws, the API returns the `null` sentinel, or it returns a batch. -/
inductive FetchOutcome where
  | throwsError
  | nullResponse
  | ok (updates : List Update)

/-- One invocation of `fetchPrimaryUpdates` (checkout.js lines 932-966).  The
`finally` block runs on every exit of the `try`/`catch` — including the early
`return` after the null sentinel and the `return` in the `catch` — and, since
the interval variable then holds the just-created (truthy) backoff timeout id,
it clears that timeout and reschedules with the 100 ms inter-poll delay. -/
def fetchPrimaryStep (cfg : Config) (fr : FileOracle) (ps : PollState) (iv : PollTimer)
    (out : FetchOutcome) : PollState × PollTimer :=
  if timerTruthy iv = false then (ps, iv)
  else
    match out with
    | FetchOutcome.nullResponse =>
      let iv1 := schedulePoll iv 15000
      (ps, if timerTruthy iv1 then schedulePoll iv1 100 else iv1)
    | FetchOutcome.throwsError =>
      let iv1 := schedulePoll iv 15000
      (ps, if timerTruthy iv1 then schedulePoll iv1 100 else iv1)
    | FetchOutcome.ok us =>
      (processUpdatesBatch cfg fr ps BotType.primary us,
       if timerTruthy iv then schedulePoll iv 100 else iv)

/-- One invocation of `fetchAuxiliaryUpdates` (checkout.js lines 968-1000); the
loop body is the one of `fetchPrimaryStep` over the auxiliary channel, guarded
by the auxiliary configuration. -/
def fetchAuxiliaryStep (cfg : Config) (fr : FileOracle) (ps : PollState) (iv : PollTimer)
    (out : FetchOutcome) : PollState × PollTimer :=
  if timerTruthy iv = false ∨ cfg.hasAuxToken = false ∨ cfg.auxChatId = none then (ps, iv)
  else
    match out with
    | FetchOutcome.nullResponse =>
      let iv1 := schedulePoll iv 15000
      (ps, if timerTruthy iv1 then schedulePoll iv1 100 else iv1)
    | FetchOutcome.throwsError =>
      let iv1 := schedulePoll iv 15000
      (ps, if timerTruthy iv1 then schedulePoll iv1 100 else iv1)
    | FetchOutcome.ok us =>
      (processUpdatesBatch cfg fr ps BotType.auxiliary us,
       if timerTruthy iv then schedulePoll iv 100 else iv)

/-! Concrete example data used by witnesses and counterexamples. -/

/-- An example configuration: primary chat `"9"`, no auxiliary channel. -/
def cfgEx : Config := ⟨['9'], none, false, ['b'], ['c']⟩

/-- A file oracle on which every `getFile` request fails. -/
def frEx : FileOracle := fun _ _ => none

/-- The empty application state. -/
def appEx : AppState := ⟨[], [], none, none, [], [], [], none, []⟩

/-- The initial polling state over the empty application state. -/
def psEx : PollState := ⟨0, 0, appEx⟩

/-- A message from the bound primary chat whose text starts with `*` but matches
no command form. -/
def msgFooEx : Message := ⟨['B'], ['9'], 7, some (strL "*FOO*hola"), none, none⟩

/-- A `*RULETA*` command with an out-of-range winning hour. -/
def msgRulBadEx : Message := ⟨['B'], ['9'], 7, some (strL "*RULETA*3*25*WIN*"), none, none⟩

/-- A `*TARJETA*` command whose remainder is not a card number. -/
def msgTarBadEx : Message := ⟨['B'], ['9'], 7, some (strL "*TARJETA*abc*"), none, none⟩

/-- A well-formed command message from a chat bound to no channel. -/
def msgOtherChatEx : Message := ⟨['B'], ['8'], 7, some (strL "*RULETA*3*14*WIN123*"), none, none⟩

/-- A text-only `*DULCES*` upsert message from the bound primary chat. -/
def msgDulEx : Message := ⟨['A'], ['9'], 1, some (strL "*DULCES*7*Pan*Rico*5 CUP*"), none, none⟩

/-- An existing product record that carries an image. -/
def recPanEx : ProdRec := ⟨['o'], ['d'], some 9, some 9, some ['u']⟩

/-- A state whose store holds `recPanEx` under id `"7"`. -/
def stC8Ex : AppState := {appEx with store := [(['7'], recPanEx)]}

/-- Record 1 of the C6 example catalog. -/
def recAEx : ProdRec := ⟨['a'], ['A'], some 1, none, some ['x']⟩

/-- Record 2 of the C6 example catalog. -/
def recBEx : ProdRec := ⟨['b'], ['B'], some 2, none, none⟩

/-- Record 3 of the C6 example catalog. -/
def recCEx : ProdRec := ⟨['c'], ['C'], some 3, none, some ['z']⟩

/-- The C6 example catalog: products 1, 2, 3 with consistent grid and store. -/
def stC6Ex : AppState :=
  ⟨[⟨natKey 1, recAEx.name, recAEx.description, recAEx.imageUrl⟩,
    ⟨natKey 2, recBEx.name, recBEx.description, recBEx.imageUrl⟩,
    ⟨natKey 3, recCEx.name, recCEx.description, recCEx.imageUrl⟩],
   [(natKey 1, recAEx), (natKey 2, recBEx), (natKey 3, recCEx)],
   none, none, [], [], [], none, []⟩

/-! Helper lemmas. -/

theorem kvGet_kvSet_self (k : List Char) (v : ProdRec) (m : List (List Char × ProdRec)) :
    kvGet k (kvSet k v m) = some v := by
  induction m with
  | nil => simp [kvSet, kvGet]
  | cons p ps ih =>
    by_cases hp : p.1 = k
    · simp [kvSet, kvGet, hp]
    · simp [kvSet, kvGet, hp, ih]

theorem isDuplicateOfLast_iff (h : List Entry) (text : Option (List Char)) (ty : MsgType)
    (sender : List Char) (ts : Nat) (img : Option (List Char)) :
    isDuplicateOfLast h text ty sender ts img = true ↔
      h.getLast? = some (mkEntry text ty sender ts img) := by
  unfold isDuplicateOfLast mkEntry
  cases hl : h.getLast? with
  | none => simp
  | some last =>
    cases last
    simp only [Bool.and_eq_true, decide_eq_true_eq, Option.some.injEq, Entry.mk.injEq]
    tauto

theorem priceAssign_append_last_cup (toks : List (ℚ × Cur)) :
    (priceAssign toks).1
      = ((toks.filter (fun t => decide (t.2 = Cur.cup))).getLast?).map Prod.fst := by
  induction toks using List.reverseRecOn with
  | nil => simp [priceAssign]
  | append_singleton l t ih =>
    unfold priceAssign at *
    rw [List.foldl_append]
    cases t with
    | mk v c =>
      cases c with
      | cup => simp [priceStep, List.filter_append]
      | mlc => simp [priceStep, List.filter_append, ih]

theorem priceAssign_append_last_mlc (toks : List (ℚ × Cur)) :
    (priceAssign toks).2
      = ((toks.filter (fun t => decide (t.2 = Cur.mlc))).getLast?).map Prod.fst := by
  induction toks using List.reverseRecOn with
  | nil => simp [priceAssign]
  | append_singleton l t ih =>
    unfold priceAssign at *
    rw [List.foldl_append]
    cases t with
    | mk v c =>
      cases c with
      | cup => simp [priceStep, List.filter_append, ih]
      | mlc => simp [priceStep, List.filter_append]

/-! Theorems for the claims. -/

/-- C5: parsing `*DULCES*42*Caramelo*Rico*10,50 CUP 2 MLC*` yields the upsert
command with id `42`, name `Caramelo`, description `Rico`, CUP price `10.50`
and MLC price `2`; in the price segment the last token of a given currency
wins; and a price segment scanning to zero currency-tagged tokens makes the
whole command parse to nothing. -/
theorem claim_C5 :
    parseProductCommand (strL "*DULCES*42*Caramelo*Rico*10,50 CUP 2 MLC*")
      = some ⟨strL "42", strL "Caramelo", strL "Rico", some ((21 : ℚ)/2), some 2⟩
    ∧ (∀ toks : List (ℚ × Cur),
        (priceAssign toks).1
          = ((toks.filter (fun t => decide (t.2 = Cur.cup))).getLast?).map Prod.fst
        ∧ (priceAssign toks).2
          = ((toks.filter (fun t => decide (t.2 = Cur.mlc))).getLast?).map Prod.fst)
    ∧ (∀ t i nm ds ps, dulcesSegments t = some (i, nm, ds, ps) → scanPrices ps = [] →
        parseProductCommand t = none) := by
  have hconc : parseProductCommand (strL "*DULCES*42*Caramelo*Rico*10,50 CUP 2 MLC*")
      = some ⟨strL "42", strL "Caramelo", strL "Rico", some ((21 : ℚ)/2), some 2⟩ := by
    have h1 : parseProductCommand (strL "*DULCES*42*Caramelo*Rico*10,50 CUP 2 MLC*")
        = some ⟨strL "42", strL "Caramelo", strL "Rico",
                some (ratOfDigits (strL "10") + fracVal (strL "50")),
                some (ratOfDigits (strL "2"))⟩ := by rfl
    have e10 : natOfDigits (strL "10") = 10 := rfl
    have e50 : natOfDigits (strL "50") = 50 := rfl
    have elen : (strL "50").length = 2 := rfl
    have e2 : natOfDigits (strL "2") = 2 := rfl
    have h2 : ratOfDigits (strL "10") + fracVal (strL "50") = (21:ℚ)/2 := by
      simp only [ratOfDigits, fracVal, e10, e50, elen]
      norm_num
    have h3 : ratOfDigits (strL "2") = (2:ℚ) := by
      simp only [ratOfDigits, e2]
      norm_num
    rw [h1, h2, h3]
  refine ⟨hconc, fun toks => ⟨priceAssign_append_last_cup toks, priceAssign_append_last_mlc toks⟩, ?_⟩
  intro t i nm ds ps hseg hscan
  unfold parseProductCommand
  by_cases hp : dulcesTag.isPrefixOf t
  · simp only [hp, if_true, hseg]
    unfold mkProductCommand
    rw [hscan]
    by_cases hd : isDigitsStr i = true
    · simp [hd, priceAssign]
    · simp [hd]
  · simp [hp]

/-- C5 witness: the parse of the concrete example, a concrete last-wins
instance, and a concrete rejected command with a price segment that scans to
no currency-tagged tokens. -/
theorem claim_C5_witness :
    parseProductCommand (strL "*DULCES*42*Caramelo*Rico*10,50 CUP 2 MLC*")
      = some ⟨strL "42", strL "Caramelo", strL "Rico", some ((21 : ℚ)/2), some 2⟩
    ∧ (priceAssign [(3, Cur.cup), (4, Cur.cup)]).1
        = (([(3, Cur.cup), (4, Cur.cup)].filter
            (fun t => decide (t.2 = Cur.cup))).getLast?).map Prod.fst
    ∧ parseProductCommand (strL "*DULCES*1*a*b*nada*") = none :=
  ⟨claim_C5.1, (claim_C5.2.1 [(3, Cur.cup), (4, Cur.cup)]).1,
   claim_C5.2.2 (strL "*DULCES*1*a*b*nada*") (strL "1") (strL "a") (strL "b") (strL "nada")
     (by decide) (by decide)⟩

/-- C9: the chat history value persisted by the storage save operation is the
input trimmed to its last 200 entries: it equals `drop (length - 200)`, its
length is at most 200, and it is a suffix of the input (the input itself is
not modified — the embedding is functional and `slice` copies). -/
theorem claim_C9 (h : List Entry) :
    saveChatHistoryVal h = h.drop (h.length - 200)
    ∧ (saveChatHistoryVal h).length ≤ 200
    ∧ saveChatHistoryVal h <:+ h := by
  unfold saveChatHistoryVal
  by_cases hl : 200 < h.length
  · rw [if_pos hl]
    refine ⟨rfl, ?_, List.drop_suffix _ _⟩
    rw [List.length_drop]
    omega
  · rw [if_neg hl]
    have h0 : h.length - 200 = 0 := by omega
    rw [h0, List.drop_zero]
    exact ⟨rfl, by omega, List.suffix_refl h⟩

/-- C10: a chat append with entry type `system` or `error`, or with
`save = false`, changes neither the history array nor the persisted history;
and every entry ever present in the resulting array or in a persisted value is
either a pre-existing entry or of type `sent`/`received`. -/
theorem claim_C10 :
    (∀ text ty sender ts img (save : Bool) h key,
      (ty = MsgType.system ∨ ty = MsgType.error ∨ save = false) →
      addMessageToChat text ty sender ts img save h key = (h, none))
    ∧ (∀ text ty sender ts img save h key e,
      e ∈ (addMessageToChat text ty sender ts img save h key).1 →
      e ∈ h ∨ e.type = MsgType.sent ∨ e.type = MsgType.received)
    ∧ (∀ text ty sender ts img save h key w e,
      (addMessageToChat text ty sender ts img save h key).2 = some w → e ∈ w →
      e ∈ h ∨ e.type = MsgType.sent ∨ e.type = MsgType.received) := by
  have hmem : ∀ text ty sender ts img save h key e,
      e ∈ (addMessageToChat text ty sender ts img save h key).1 →
      e ∈ h ∨ e.type = MsgType.sent ∨ e.type = MsgType.received := by
    intro text ty sender ts img save h key e he
    unfold addMessageToChat at he
    by_cases hc : save = true ∧ ty ≠ MsgType.system ∧ ty ≠ MsgType.error ∧ key ≠ []
    · rw [if_pos hc] at he
      by_cases hdup : isDuplicateOfLast h text ty sender ts img
      · rw [if_pos hdup] at he
        exact Or.inl he
      · rw [if_neg hdup] at he
        simp only [List.mem_append, List.mem_singleton] at he
        cases he with
        | inl hin => exact Or.inl hin
        | inr heq =>
          subst heq
          cases ty with
          | sent => exact Or.inr (Or.inl rfl)
          | received => exact Or.inr (Or.inr rfl)
          | system => exact absurd rfl hc.2.1
          | error => exact absurd rfl hc.2.2.1
    · rw [if_neg hc] at he
      exact Or.inl he
  refine ⟨?_, hmem, ?_⟩
  · intro text ty sender ts img save h key hty
    unfold addMessageToChat
    rw [if_neg]
    rintro ⟨hsave, hsys, herr, -⟩
    rcases hty with hty | hty | hty
    · exact hsys hty
    · exact herr hty
    · rw [hty] at hsave
      exact Bool.false_ne_true hsave
  · intro text ty sender ts img save h key w e hw hew
    have hsub : w <:+ (addMessageToChat text ty sender ts img save h key).1 := by
      unfold addMessageToChat at hw ⊢
      by_cases hc : save = true ∧ ty ≠ MsgType.system ∧ ty ≠ MsgType.error ∧ key ≠ []
      · rw [if_pos hc] at hw ⊢
        by_cases hdup : isDuplicateOfLast h text ty sender ts img
        · rw [if_pos hdup] at hw
          exact absurd hw (by simp)
        · rw [if_neg hdup] at hw ⊢
          simp only [Option.some.injEq] at hw
          subst hw
          exact (claim_C9 _).2.2
      · rw [if_neg hc] at hw
        exact absurd hw (by simp)
    exact hmem text ty sender ts img save h key e (hsub.mem hew)

/-- C10 witness: concrete no-op calls of each excluded kind, and the typing of a
concretely added entry. -/
theorem claim_C10_witness :
    addMessageToChat (some ['h']) MsgType.system ['A'] 5 none true [] ['k'] = ([], none)
    ∧ addMessageToChat (some ['h']) MsgType.error ['A'] 5 none true [] ['k'] = ([], none)
    ∧ addMessageToChat (some ['h']) MsgType.received ['A'] 5 none false [] ['k'] = ([], none)
    ∧ (mkEntry (some ['h']) MsgType.received ['A'] 5 none ∈ ([] : List Entry)
       ∨ (mkEntry (some ['h']) MsgType.received ['A'] 5 none).type = MsgType.sent
       ∨ (mkEntry (some ['h']) MsgType.received ['A'] 5 none).type = MsgType.received) :=
  ⟨claim_C10.1 _ _ _ _ _ _ _ _ (Or.inl rfl),
   claim_C10.1 _ _ _ _ _ _ _ _ (Or.inr (Or.inl rfl)),
   claim_C10.1 _ _ _ _ _ _ _ _ (Or.inr (Or.inr rfl)),
   claim_C10.2.1 (some ['h']) MsgType.received ['A'] 5 none true [] ['k'] _ (by decide)⟩

/-- C7 counterexample: appending the same `system`-typed entry twice in
succession stores zero entries, not exactly one — the claim as stated fails
for entry types the append guard excludes. -/
theorem claim_C7_counterexample :
    ((addMessageToChat (some ['h']) MsgType.system ['A'] 5 none true
        ((addMessageToChat (some ['h']) MsgType.system ['A'] 5 none true [] ['k']).1)
        ['k']).1).length = 0 := by decide

/-- C7 amended: appending an entry identical to the last entry of the history
is always a no-op; and for entries of type `sent` or `received` with
`save = true` and a nonempty storage key, appending twice in succession stores
exactly one entry: the second call changes nothing, and the first call appends
exactly one entry whenever it is not itself a duplicate of the last. -/
theorem claim_C7_amended :
    (∀ text ty sender ts img (save : Bool) h key,
      h.getLast? = some (mkEntry text ty sender ts img) →
      addMessageToChat text ty sender ts img save h key = (h, none))
    ∧ (∀ text ty sender ts img h key,
      (ty = MsgType.sent ∨ ty = MsgType.received) → key ≠ [] →
      addMessageToChat text ty sender ts img true
          ((addMessageToChat text ty sender ts img true h key).1) key
        = ((addMessageToChat text ty sender ts img true h key).1, none)
      ∧ (h.getLast? ≠ some (mkEntry text ty sender ts img) →
         (addMessageToChat text ty sender ts img true h key).1
           = h ++ [mkEntry text ty sender ts img])) := by
  have hdup_noop : ∀ text ty sender ts img (save : Bool) h key,
      h.getLast? = some (mkEntry text ty sender ts img) →
      addMessageToChat text ty sender ts img save h key = (h, none) := by
    intro text ty sender ts img save h key hlast
    unfold addMessageToChat
    by_cases hc : save = true ∧ ty ≠ MsgType.system ∧ ty ≠ MsgType.error ∧ key ≠ []
    · rw [if_pos hc, if_pos ((isDuplicateOfLast_iff h text ty sender ts img).mpr hlast)]
    · rw [if_neg hc]
  refine ⟨hdup_noop, ?_⟩
  intro text ty sender ts img h key hty hkey
  have hc : (true : Bool) = true ∧ ty ≠ MsgType.system ∧ ty ≠ MsgType.error ∧ key ≠ [] := by
    rcases hty with hty | hty <;> subst hty <;>
      exact ⟨rfl, by simp, by simp, hkey⟩
  constructor
  · by_cases hdup : isDuplicateOfLast h text ty sender ts img
    · have h1 : (addMessageToChat text ty sender ts img true h key).1 = h := by
        unfold addMessageToChat
        rw [if_pos hc, if_pos hdup]
      rw [h1]
      exact hdup_noop _ _ _ _ _ _ _ _ ((isDuplicateOfLast_iff h text ty sender ts img).mp hdup)
    · have h1 : (addMessageToChat text ty sender ts img true h key).1
          = h ++ [mkEntry text ty sender ts img] := by
        unfold addMessageToChat
        rw [if_pos hc, if_neg hdup]
      rw [h1]
      exact hdup_noop _ _ _ _ _ _ _ _ (by simp)
  · intro hne
    have hdup : ¬ isDuplicateOfLast h text ty sender ts img = true := by
      rw [isDuplicateOfLast_iff]
      exact hne
    unfold addMessageToChat
    rw [if_pos hc, if_neg hdup]

/-- C7 witness: concrete double append of a `received` entry — the second call
is a no-op and the first stored exactly one entry; plus a concrete
duplicate-of-last no-op. -/
theorem claim_C7_witness :
    (addMessageToChat (some ['h']) MsgType.received ['A'] 5 none true
        ((addMessageToChat (some ['h']) MsgType.received ['A'] 5 none true [] ['k']).1) ['k']
      = ((addMessageToChat (some ['h']) MsgType.received ['A'] 5 none true [] ['k']).1, none))
    ∧ (addMessageToChat (some ['h']) MsgType.received ['A'] 5 none true [] ['k']).1
      = [] ++ [mkEntry (some ['h']) MsgType.received ['A'] 5 none]
    ∧ addMessageToChat (some ['h']) MsgType.received ['A'] 5 none true
        [mkEntry (some ['h']) MsgType.received ['A'] 5 none] ['k']
      = ([mkEntry (some ['h']) MsgType.received ['A'] 5 none], none) :=
  ⟨(claim_C7_amended.2 _ _ _ _ _ _ _ (Or.inr rfl) (by decide)).1,
   (claim_C7_amended.2 _ _ _ _ _ _ _ (Or.inr rfl) (by decide)).2 (by decide),
   claim_C7_amended.1 _ _ _ _ _ _ _ _ (by decide)⟩

/-- C1: contrary to the claim, after a fetch failure (a throw or the null
sentinel) the next poll is scheduled after the short 100 ms inter-poll delay,
not the 15 s backoff: the `finally` block runs after the early returns, sees
the freshly created backoff timeout (truthy) and replaces it with a 100 ms
timeout.  A successful empty fetch also reschedules at 100 ms (that half of
the claim matches the code). -/
theorem claim_C1_bug (cfg : Config) (fr : FileOracle) (ps : PollState) (d : Nat) :
    (fetchPrimaryStep cfg fr ps PollTimer.starting FetchOutcome.throwsError).2
      = PollTimer.scheduled 100
    ∧ (fetchPrimaryStep cfg fr ps (PollTimer.scheduled d) FetchOutcome.throwsError).2
      = PollTimer.scheduled 100
    ∧ (fetchPrimaryStep cfg fr ps PollTimer.starting FetchOutcome.nullResponse).2
      = PollTimer.scheduled 100
    ∧ (fetchPrimaryStep cfg fr ps PollTimer.starting (FetchOutcome.ok [])).2
      = PollTimer.scheduled 100
    ∧ (fetchAuxiliaryStep {cfg with hasAuxToken := true, auxChatId := some ['9']} fr ps
        PollTimer.starting FetchOutcome.throwsError).2 = PollTimer.scheduled 100 := by
  refine ⟨rfl, rfl, rfl, rfl, ?_⟩
  unfold fetchAuxiliaryStep
  rw [if_neg]
  · rfl
  · rintro (hx | hx | hx) <;> simp_all [timerTruthy]

theorem cursorOf_processUpdate (cfg : Config) (fr : FileOracle) (ps : PollState) (bt : BotType)
    (u : Update) : cursorOf bt (processUpdate cfg fr ps bt u) = u.update_id := by
  cases u with
  | mk n msg => cases msg <;> cases bt <;> rfl

theorem cursorTrace_cons (cfg : Config) (fr : FileOracle) (ps : PollState) (bt : BotType)
    (u : Update) (us : List Update) :
    cursorTrace cfg fr ps bt (u :: us)
      = cursorOf bt ps :: cursorTrace cfg fr (processUpdate cfg fr ps bt u) bt us := by
  simp [cursorTrace, List.scanl_cons]

theorem cursorTrace_head (cfg : Config) (fr : FileOracle) (ps : PollState) (bt : BotType)
    (us : List Update) : (cursorTrace cfg fr ps bt us).head? = some (cursorOf bt ps) := by
  cases us <;> simp [cursorTrace, List.scanl_cons, List.scanl_nil]

/-- C4: across any batches whose update ids (prefixed with the channel's current
cursor) form an ascending chain — as the upstream feed guarantees relative to
the requested offset — the channel cursor never decreases at any step;
processing batch by batch equals processing the concatenation; and each fetch
requests `offset = last_seen_update_id + 1` on both channels. -/
theorem claim_C4 :
    (∀ (cfg : Config) (fr : FileOracle) (ps : PollState) (bt : BotType) (us : List Update),
      List.Chain' (· ≤ ·) (cursorOf bt ps :: us.map Update.update_id) →
      List.Chain' (· ≤ ·) (cursorTrace cfg fr ps bt us))
    ∧ (∀ (cfg : Config) (fr : FileOracle) (ps : PollState) (bt : BotType)
        (bs : List (List Update)),
      bs.foldl (fun a us => processUpdatesBatch cfg fr a bt us) ps
        = processUpdatesBatch cfg fr ps bt bs.flatten)
    ∧ (∀ k, (primaryGetUpdatesParams k).offset = k + 1
        ∧ (auxiliaryGetUpdatesParams k).offset = k + 1) := by
  refine ⟨?_, ?_, fun k => ⟨rfl, rfl⟩⟩
  · intro cfg fr ps bt us
    induction us generalizing ps with
    | nil =>
      intro _
      simp [cursorTrace, List.scanl_nil, List.chain'_singleton]
    | cons u us ih =>
      intro h
      rw [cursorTrace_cons]
      rw [List.map_cons] at h
      rcases us with _ | ⟨v, vs⟩
      · simp only [cursorTrace, List.scanl_nil, List.map_cons, List.map_nil]
        rw [List.chain'_cons] at h ⊢
        exact ⟨by rw [cursorOf_processUpdate]; exact h.1, List.chain'_singleton _⟩
      · have hhead := cursorTrace_head cfg fr (processUpdate cfg fr ps bt u) bt (v :: vs)
        rcases htr : cursorTrace cfg fr (processUpdate cfg fr ps bt u) bt (v :: vs) with
          _ | ⟨c0, cs⟩
        · rw [htr] at hhead
          exact absurd hhead (by simp)
        · rw [htr] at hhead
          simp only [List.head?_cons, Option.some.injEq] at hhead
          rw [List.chain'_cons]
          have hchain := ih (processUpdate cfg fr ps bt u)
            (by rw [cursorOf_processUpdate]; exact (List.chain'_cons.mp h).2)
          rw [htr] at hchain
          refine ⟨?_, hchain⟩
          rw [hhead, cursorOf_processUpdate]
          exact (List.chain'_cons.mp h).1
  · intro cfg fr ps bt bs
    induction bs generalizing ps with
    | nil => rfl
    | cons b bs ih =>
      simp only [List.foldl_cons, List.flatten_cons]
      rw [ih]
      unfold processUpdatesBatch
      rw [List.foldl_append]

/-- C4 witness: a concrete ascending two-batch run has an ascending cursor
trace. -/
theorem claim_C4_witness :
    List.Chain' (· ≤ ·)
      (cursorTrace cfgEx frEx psEx BotType.primary [⟨1, none⟩, ⟨3, none⟩]) :=
  claim_C4.1 cfgEx frEx psEx BotType.primary [⟨1, none⟩, ⟨3, none⟩]
    (List.chain'_cons.mpr ⟨by norm_num [cursorOf, psEx],
      List.chain'_cons.mpr ⟨by norm_num, List.chain'_singleton _⟩⟩)

/-- C3: an update whose message comes from a chat other than the one bound to
the fetching channel is processed exactly like a message-less update: only the
cursor advances, and the whole application state — product grid and records,
ticker, payment card, notification and roulette triggers, chat history,
persisted history and logs — is untouched. -/
theorem claim_C3 (cfg : Config) (fr : FileOracle) (ps : PollState) (bt : BotType) (n : Nat)
    (m : Message) (h : some m.chatId ≠ boundChat cfg bt) :
    processUpdate cfg fr ps bt ⟨n, some m⟩ = processUpdate cfg fr ps bt ⟨n, none⟩
    ∧ (processUpdate cfg fr ps bt ⟨n, some m⟩).core = ps.core
    ∧ cursorOf bt (processUpdate cfg fr ps bt ⟨n, some m⟩) = n := by
  have h' : ¬(boundChat cfg bt = some m.chatId) := fun hh => h hh.symm
  refine ⟨?_, ?_, ?_⟩
  · simp [processUpdate, processMessage, h']
  · cases bt <;> simp [processUpdate, processMessage, h', setCursor]
  · cases bt <;> simp [processUpdate, processMessage, h', setCursor, cursorOf]

/-- C3 witness: a well-formed roulette command from an unbound chat leaves the
state identical to a run without the message, with only the cursor set. -/
theorem claim_C3_witness :
    processUpdate cfgEx frEx psEx BotType.primary ⟨5, some msgOtherChatEx⟩
      = processUpdate cfgEx frEx psEx BotType.primary ⟨5, none⟩
    ∧ (processUpdate cfgEx frEx psEx BotType.primary ⟨5, some msgOtherChatEx⟩).core = psEx.core
    ∧ cursorOf BotType.primary (processUpdate cfgEx frEx psEx BotType.primary
        ⟨5, some msgOtherChatEx⟩) = 5 :=
  claim_C3 cfgEx frEx psEx BotType.primary 5 msgOtherChatEx (by decide)

theorem renumberCards_pids (cs : List Card) : ∀ i,
    (renumberCards i cs).map Card.pid = (List.range' (i + 1) cs.length).map natKey := by
  induction cs with
  | nil => intro i; rfl
  | cons c cs ih =>
    intro i
    simp only [renumberCards, List.length_cons, List.range'_succ, List.map_cons]
    by_cases hc : c.pid = natKey (i + 1)
    · rw [if_neg (by simp [hc])]
      simp [hc, ih (i + 1)]
    · rw [if_pos hc]
      simp [ih (i + 1)]

theorem renumberCards_length (cs : List Card) : ∀ i, (renumberCards i cs).length = cs.length := by
  induction cs with
  | nil => intro i; rfl
  | cons c cs ih => intro i; simp only [renumberCards, List.length_cons, ih (i + 1)]

theorem renumber_grid (st : AppState) : (renumber st).grid = renumberCards 0 st.grid := by
  unfold renumber
  by_cases hg : st.grid.isEmpty
  · rw [if_pos hg]
    rw [List.isEmpty_iff] at hg
    rw [hg]
    rfl
  · rw [if_neg hg]
    by_cases hu : (collectUpdates st.store 0 st.grid).isEmpty <;> simp [hu]

/-- C6: deleting product 2 from the catalog 1,2,3 renumbers the grid to ids
1,2, moves the record formerly stored under id 3 to id 2 unchanged, keeps
record 1, and removes the record under id 3; and in general, deleting any
product present in the grid leaves the grid ids exactly `1..N` in display
order. -/
theorem claim_C6 :
    (∀ (n1 d1 n2 d2 n3 d3 : List Char) (i1 i2 i3 : Option (List Char)) (r1 r2 r3 : ProdRec),
      (deleteProduct
          ⟨[⟨natKey 1, n1, d1, i1⟩, ⟨natKey 2, n2, d2, i2⟩, ⟨natKey 3, n3, d3, i3⟩],
           [(natKey 1, r1), (natKey 2, r2), (natKey 3, r3)],
           none, none, [], [], [], none, []⟩ (natKey 2)).grid.map Card.pid
        = [natKey 1, natKey 2]
      ∧ kvGet (natKey 1) (deleteProduct
          ⟨[⟨natKey 1, n1, d1, i1⟩, ⟨natKey 2, n2, d2, i2⟩, ⟨natKey 3, n3, d3, i3⟩],
           [(natKey 1, r1), (natKey 2, r2), (natKey 3, r3)],
           none, none, [], [], [], none, []⟩ (natKey 2)).store = some r1
      ∧ kvGet (natKey 2) (deleteProduct
          ⟨[⟨natKey 1, n1, d1, i1⟩, ⟨natKey 2, n2, d2, i2⟩, ⟨natKey 3, n3, d3, i3⟩],
           [(natKey 1, r1), (natKey 2, r2), (natKey 3, r3)],
           none, none, [], [], [], none, []⟩ (natKey 2)).store = some r3
      ∧ kvGet (natKey 3) (deleteProduct
          ⟨[⟨natKey 1, n1, d1, i1⟩, ⟨natKey 2, n2, d2, i2⟩, ⟨natKey 3, n3, d3, i3⟩],
           [(natKey 1, r1), (natKey 2, r2), (natKey 3, r3)],
           none, none, [], [], [], none, []⟩ (natKey 2)).store = none)
    ∧ (∀ (st : AppState) (pid : List Char), gridHas pid st.grid = true →
      (deleteProduct st pid).grid.map Card.pid
        = (List.range' 1 (deleteProduct st pid).grid.length).map natKey) := by
  constructor
  · intro n1 d1 n2 d2 n3 d3 i1 i2 i3 r1 r2 r3
    exact ⟨rfl, rfl, rfl, rfl⟩
  · intro st pid h
    unfold deleteProduct
    rw [if_pos h]
    rw [renumber_grid]
    rw [renumberCards_pids]
    rw [renumberCards_length]

/-- C6 witness: the general denseness statement applied to the concrete
three-product catalog. -/
theorem claim_C6_witness :
    (deleteProduct stC6Ex (natKey 2)).grid.map Card.pid
      = (List.range' 1 (deleteProduct stC6Ex (natKey 2)).grid.length).map natKey :=
  claim_C6.2 stC6Ex (natKey 2) (by decide)

theorem prefix_exists {p t : List Char} (h : p.isPrefixOf t = true) : ∃ u, t = p ++ u := by
  obtain ⟨u, hu⟩ := List.isPrefixOf_iff_prefix.mp h
  exact ⟨u, hu.symm⟩

theorem guards_of_dulces (t : List Char) (h : dulcesTag.isPrefixOf t = true) :
    ¬(t = eliminarMText) ∧ panelText.isPrefixOf t = false ∧ notifText.isPrefixOf t = false
    ∧ ruletaText.isPrefixOf t = false ∧ tarjetaText.isPrefixOf t = false
    ∧ ¬(t = tarjetaEText) ∧ elimProdText.isPrefixOf t = false := by
  obtain ⟨u, rfl⟩ := prefix_exists h
  refine ⟨?_, rfl, rfl, rfl, rfl, ?_, rfl⟩
  · intro hEq
    simp [dulcesTag, eliminarMText] at hEq
  · intro hEq
    simp [dulcesTag, tarjetaEText] at hEq

theorem guards_of_ruleta (t : List Char) (h : ruletaText.isPrefixOf t = true) :
    ¬(t = eliminarMText) ∧ panelText.isPrefixOf t = false ∧ notifText.isPrefixOf t = false := by
  obtain ⟨u, rfl⟩ := prefix_exists h
  refine ⟨?_, rfl, rfl⟩
  intro hEq
  simp [ruletaText, eliminarMText] at hEq

theorem guards_of_tarjeta (t : List Char) (h : tarjetaText.isPrefixOf t = true) :
    ¬(t = eliminarMText) ∧ panelText.isPrefixOf t = false ∧ notifText.isPrefixOf t = false
    ∧ ruletaText.isPrefixOf t = false := by
  obtain ⟨u, rfl⟩ := prefix_exists h
  refine ⟨?_, rfl, rfl, rfl⟩
  intro hEq
  simp [tarjetaText, eliminarMText] at hEq

theorem parse_some_isPrefixOf (t : List Char) (p : ProdCmd)
    (h : parseProductCommand t = some p) : dulcesTag.isPrefixOf t = true := by
  by_cases hp : dulcesTag.isPrefixOf t
  · exact hp
  · unfold parseProductCommand at h
    rw [if_neg (by simp [hp])] at h
    exact absurd h (by simp)

theorem doRuleta_warn (s : AppState) (t : List Char) (h : rouletteOk t = false) :
    doRuleta s t = addLog s LogKind.warn := by
  unfold doRuleta
  rcases hST : splitTrimFilter t with _ | ⟨w, _ | ⟨a, _ | ⟨hh, _ | ⟨code, _ | _⟩⟩⟩⟩ <;>
    simp only [rouletteOk, hST] at h ⊢ <;> try rfl
  cases hG : (decide (upperChars w = ruletaWord) && isDigitsStr a && isDigitsStr hh
      && !code.isEmpty) with
  | false => simp [hG]
  | true =>
    rw [hG, Bool.true_and] at h
    have hlt := of_decide_eq_false h
    simp [hG, hlt]

theorem doTarjeta_warn (s : AppState) (t : List Char)
    (h : (!(trimChars (t.drop tarjetaText.length)).isEmpty
        && (trimChars (t.drop tarjetaText.length)).all isCardChar) = false) :
    doTarjeta s t = addLog s LogKind.warn := by
  unfold doTarjeta
  simp only [h, Bool.false_eq_true, if_false]

/-- C2 counterexample: the message `*FOO*hola` from the bound primary chat
starts with `*` and matches no command form, yet processing it appends it to
the chat history as a plain message (and emits no warning at all). -/
theorem claim_C2_counterexample :
    (processUpdate cfgEx frEx psEx BotType.primary ⟨1, some msgFooEx⟩).core.chatHistory
      = [⟨some (strL "*FOO*hola"), MsgType.received, ['B'], 7, none⟩]
    ∧ (processUpdate cfgEx frEx psEx BotType.primary ⟨1, some msgFooEx⟩).core.logs = [] := by
  constructor <;> rfl

/-- C2 amended: a text starting with `*` that matches none of the recognized
command forms is not dropped — it falls through to plain-message handling and,
when it comes from the primary channel's bound chat, is handed to the chat
append (so it lands in the chat history); only messages matching one of the
consuming command prefixes with a malformed payload (here: `*RULETA*` and
`*TARJETA*` variants) are dropped with exactly one warning and no other state
change beyond the cursor. -/
theorem claim_C2_amended :
    (∀ (cfg : Config) (fr : FileOracle) (ps : PollState) (n : Nat) (m : Message) (t : List Char),
      m.chatId = cfg.mainChatId → m.text = some t → m.caption = none → m.photo = none →
      t.head? = some '*' →
      ¬(t = eliminarMText) → panelText.isPrefixOf t = false → notifText.isPrefixOf t = false →
      ruletaText.isPrefixOf t = false → tarjetaText.isPrefixOf t = false →
      ¬(t = tarjetaEText) → elimProdText.isPrefixOf t = false →
      parseProductCommand t = none →
      processUpdate cfg fr ps BotType.primary ⟨n, some m⟩
        = {setCursor ps BotType.primary n with
           core := appendChat cfg ps.core m.sender m.date (some t) none})
    ∧ (∀ (cfg : Config) (fr : FileOracle) (ps : PollState) (bt : BotType) (n : Nat)
        (m : Message) (t : List Char),
      boundChat cfg bt = some m.chatId → m.text = some t →
      ruletaText.isPrefixOf t = true → rouletteOk t = false →
      processUpdate cfg fr ps bt ⟨n, some m⟩
        = {setCursor ps bt n with core := addLog ps.core LogKind.warn})
    ∧ (∀ (cfg : Config) (fr : FileOracle) (ps : PollState) (bt : BotType) (n : Nat)
        (m : Message) (t : List Char),
      boundChat cfg bt = some m.chatId → m.text = some t →
      tarjetaText.isPrefixOf t = true →
      (!(trimChars (t.drop tarjetaText.length)).isEmpty
        && (trimChars (t.drop tarjetaText.length)).all isCardChar) = false →
      processUpdate cfg fr ps bt ⟨n, some m⟩
        = {setCursor ps bt n with core := addLog ps.core LogKind.warn}) := by
  refine ⟨?_, ?_, ?_⟩
  · intro cfg fr ps n m t hchat htext hcap hph hhead h1 h2 h3 h4 h5 h6 h7 h8
    obtain ⟨c, hc⟩ : ∃ c, t = '*' :: c := by
      cases t with
      | nil => exact absurd hhead (by simp)
      | cons x xs =>
        simp only [List.head?_cons, Option.some.injEq] at hhead
        exact ⟨xs, by rw [hhead]⟩
    have horn : orNull (some t) = some t := by rw [hc]; rfl
    have hbound : boundChat cfg BotType.primary = some m.chatId := by
      simp [boundChat, hchat]
    have horn2 : orNull (none : Option (List Char)) = none := rfl
    simp only [processUpdate, processMessage, htext, hbound]
    rw [if_neg h1]
    simp only [h2, h3, h4, h5, h7, Bool.false_eq_true, if_false]
    rw [if_neg h6]
    simp only [afterCommands, hcap, htext, horn2, horn, h8]
    simp only [chatBranch, hchat, hph, photoNonempty, eq_self_iff_true, and_self, if_true]
    simp only [Bool.false_eq_true, if_false, horn, htext]
    rfl
  · intro cfg fr ps bt n m t hbound htext hpre hok
    obtain ⟨hg1, hg2, hg3⟩ := guards_of_ruleta t hpre
    simp only [processUpdate, processMessage, htext]
    rw [if_pos hbound]
    rw [if_neg hg1]
    simp only [hg2, hg3, Bool.false_eq_true, if_false, hpre, if_true]
    rw [doRuleta_warn _ _ hok]
    cases bt <;> rfl
  · intro cfg fr ps bt n m t hbound htext hpre hok
    obtain ⟨hg1, hg2, hg3, hg4⟩ := guards_of_tarjeta t hpre
    simp only [processUpdate, processMessage, htext]
    rw [if_pos hbound]
    rw [if_neg hg1]
    simp only [hg2, hg3, hg4, Bool.false_eq_true, if_false, hpre, if_true]
    rw [doTarjeta_warn _ _ hok]
    cases bt <;> rfl

/-- C2 witness: the amended behaviour at concrete inputs — `*FOO*hola` falls
through to the chat append, while malformed `*RULETA*` and `*TARJETA*`
variants drop with a single warning. -/
theorem claim_C2_witness :
    processUpdate cfgEx frEx psEx BotType.primary ⟨2, some msgFooEx⟩
      = {setCursor psEx BotType.primary 2 with
         core := appendChat cfgEx psEx.core ['B'] 7 (some (strL "*FOO*hola")) none}
    ∧ processUpdate cfgEx frEx psEx BotType.primary ⟨2, some msgRulBadEx⟩
      = {setCursor psEx BotType.primary 2 with core := addLog psEx.core LogKind.warn}
    ∧ processUpdate cfgEx frEx psEx BotType.primary ⟨2, some msgTarBadEx⟩
      = {setCursor psEx BotType.primary 2 with core := addLog psEx.core LogKind.warn} :=
  ⟨claim_C2_amended.1 cfgEx frEx psEx 2 msgFooEx (strL "*FOO*hola")
     rfl rfl rfl rfl rfl (by decide) (by decide) (by decide) (by decide) (by decide)
     (by decide) (by decide) (by decide),
   claim_C2_amended.2.1 cfgEx frEx psEx BotType.primary 2 msgRulBadEx (strL "*RULETA*3*25*WIN*")
     rfl rfl (by decide) (by decide),
   claim_C2_amended.2.2 cfgEx frEx psEx BotType.primary 2 msgTarBadEx (strL "*TARJETA*abc*")
     rfl rfl (by decide) (by decide)⟩

/-- C8: an upsert command carrying no image (no photo attached, or a photo whose
URL resolution failed) applied over an existing record overwrites name,
description and both prices but keeps the prior record's image URL: an
existing image is never nulled out by an image-less update. -/
theorem claim_C8 (cfg : Config) (fr : FileOracle) (s : AppState) (bt : BotType) (m : Message)
    (t : List Char) (p : ProdCmd) (r : ProdRec)
    (hbound : boundChat cfg bt = some m.chatId)
    (htext : m.text = some t) (hcap : m.caption = none)
    (hparse : parseProductCommand t = some p)
    (himg : (resolveImage cfg fr bt m.photo).1 = none)
    (hex : kvGet p.id s.store = some r) :
    kvGet p.id (processMessage cfg fr s bt m).store
      = some {name := p.name, description := p.description, priceCUP := p.priceCUP,
              priceMLC := p.priceMLC, imageUrl := r.imageUrl} := by
  have hpre := parse_some_isPrefixOf t p hparse
  obtain ⟨h1, h2, h3, h4, h5, h6, h7⟩ := guards_of_dulces t hpre
  have horn : orNull (some t) = some t := by
    obtain ⟨u, rfl⟩ := prefix_exists hpre
    rfl
  have horn2 : orNull (none : Option (List Char)) = none := rfl
  simp only [processMessage, htext, hbound]
  rw [if_neg h1]
  simp only [h2, h3, h4, h5, h7, Bool.false_eq_true, if_false]
  rw [if_neg h6]
  simp only [afterCommands, hcap, htext, horn2, horn, hparse, himg, hex]
  cases hfail : (resolveImage cfg fr bt m.photo).2 <;>
    simp only [hfail, Bool.false_eq_true, if_false, if_true] <;>
    exact kvGet_kvSet_self _ _ _

/-- C8 witness: a concrete text-only upsert over a record with an image keeps
that image while replacing the other fields. -/
theorem claim_C8_witness :
    kvGet (strL "7") (processMessage cfgEx frEx stC8Ex BotType.primary msgDulEx).store
      = some {name := strL "Pan", description := strL "Rico", priceCUP := some 5,
              priceMLC := none, imageUrl := recPanEx.imageUrl} :=
  claim_C8 cfgEx frEx stC8Ex BotType.primary msgDulEx (strL "*DULCES*7*Pan*Rico*5 CUP*")
    ⟨strL "7", strL "Pan", strL "Rico", some 5, none⟩ recPanEx
    rfl rfl rfl (by rfl) rfl rfl

end Tiendaweb
